import Mathlib

/-!
Verification of the cargo-aur PKGBUILD generator.

The definitions below are a shallow embedding of the program:

* `src/lib.rs`   — `GitHost`, `Package`, `Metadata`, `AUR` and their methods;
* `src/main.rs`  — the license allow-list, license resolution, the
  `pkgbuild` renderer, and the external-process stages (`release_build`,
  `strip`, `source_tarball`, `tarball`, `musl_check`).

External processes are modelled by a `SpawnOutcome` value: spawning either
fails with an I/O error (what `Command::status()?` / `Command::output()?`
propagates) or the process runs and exits with a code.  File-system effects
that a claim depends on (the transient binary copy made by `tarball`) are
made explicit in the returned trace.  Paths are modelled as the strings
they display as; `Path::has_root` on Unix means the path begins with a
slash.  Directory listings are modelled as the list of UTF-8 file names in
iteration order (a non-UTF-8 name can never match a string test in the
source, so such entries are omitted from the model).
-/

/-- Errors of `src/error.rs`, together with the variants that `src/main.rs`
and `src/crates.rs` construct (`Compressing`, `ExtractingCrate`).  I/O and
parse payloads are dropped: no claim inspects them. -/
inductive Error
  | IOError
  | Toml
  | Utf8
  | Utf8OsString
  | MissingMuslTarget
  | MissingLicense
  | TargetNotAbsolute (path : String)
  | DownloadingCrate (crate_url : String)
  | Compressing
  | ExtractingCrate (crate_filename : String)
deriving DecidableEq, Repr

/-- Result of spawning an external process: `Command::status()` (and
`Command::output()`) either fails at spawn time with an I/O error or
returns the exit code of the finished process. -/
inductive SpawnOutcome
  | ioFailure
  | exited (code : Nat)
deriving DecidableEq, Repr

/-- The `?` on `Command::status()` / `Command::output()`: a spawn failure
propagates as an I/O error, otherwise the exit code is returned. -/
def SpawnOutcome.status : SpawnOutcome → Except Error Nat
  | .ioFailure => .error .IOError
  | .exited code => .ok code

/-- Model of `ExitStatus::success`: the process exited with code zero. -/
def statusSuccess (code : Nat) : Bool := code == 0

/-- Model of `str::starts_with` with a string pattern: the characters of
the pattern are a prefix of the characters of the string.  (Defined over
`List.isPrefixOf` so the kernel can evaluate it on concrete inputs.) -/
def strStartsWith (s pat : String) : Bool := pat.data.isPrefixOf s.data

/-- The git forge in which a project holds its source code (`src/lib.rs`). -/
inductive GitHost
  | Github
  | Gitlab
deriving DecidableEq, Repr

/-- The inner values of a `[package.metadata.aur]` TOML block
(`src/lib.rs`, struct `AUR`).  Paths are modelled as strings. -/
structure AUR where
  depends : List String
  optdepends : List String
  files : List (String × String)
  custom : List String
deriving DecidableEq, Repr

/-- The `[package.metadata]` TOML block (`src/lib.rs`, struct `Metadata`). -/
structure Metadata where
  depends : List String
  optdepends : List String
  aur : Option AUR
deriving DecidableEq, Repr

/-- The critical fields read from a `Cargo.toml` (`src/lib.rs`, struct
`Package`). -/
structure Package where
  name : String
  version : String
  authors : List String
  description : String
  repository : String
  license : String
  metadata : Option Metadata
  homepage : Option String
  documentation : Option String
deriving DecidableEq, Repr

/-- A `[[bin]]` entry of the manifest (`src/main.rs`, struct `Binary`). -/
structure Binary where
  name : String
deriving DecidableEq, Repr

/-- The whole parsed manifest (`src/main.rs`, struct `Config`). -/
structure Config where
  package : Package
  bin : List Binary
deriving DecidableEq, Repr

/-- Where to obtain the source code for the package (`src/main.rs`,
enum `Source`). -/
inductive Source
  | CratesIo
  | Project
deriving DecidableEq, Repr

/-- The name of the compiled binary that should be copied to the tarball
(`Config::binary_name`): the first declared binary target, else the
package name. -/
def Config.binary_name (config : Config) : String :=
  ((config.bin.head?).map Binary.name).getD config.package.name

/-- Model of `GitHost::source` (`src/lib.rs`): the release-download URL
template, with the platform identifier suffix present exactly when a
binary tarball is expected. -/
def GitHost.source (host : GitHost) (package : Package) (no_bin : Bool) : String :=
  let platform_identifier := if no_bin then "" else "-x86_64"
  match host with
  | .Github =>
      package.repository ++ "/releases/download/v$pkgver/" ++ package.name
        ++ "-$pkgver" ++ platform_identifier ++ ".tar.gz"
  | .Gitlab =>
      package.repository ++ "/-/archive/v$pkgver/" ++ package.name
        ++ "-$pkgver" ++ platform_identifier ++ ".tar.gz"

/-- Model of `Package::git_host` (`src/lib.rs`). -/
def Package.git_host (package : Package) : Option GitHost :=
  if strStartsWith package.repository "https://github" then some GitHost.Github
  else if strStartsWith package.repository "https://gitlab" then some GitHost.Gitlab
  else none

/-- Model of `Package::url` (`src/lib.rs`):
`self.homepage.as_deref().or(self.documentation.as_deref()).unwrap_or(&self.repository)`. -/
def Package.url (package : Package) : String :=
  (package.homepage.or package.documentation).getD package.repository

/-- Model of `Metadata::non_empty` (`src/lib.rs`). -/
def Metadata.non_empty (m : Metadata) : Bool :=
  !m.depends.isEmpty || !m.optdepends.isEmpty ||
    (match m.aur with
     | some aur => !aur.depends.isEmpty || !aur.optdepends.isEmpty
     | none => false)

/-- A dependency item as printed by the `Display` impl for `Metadata`:
the item wrapped in double quotes. -/
def dquote (s : String) : String := "\"" ++ s ++ "\""

/-- The item loop of the `Display` impl for `Metadata` (`src/lib.rs`):
every item of `middle` is printed as `"item" ` (with a trailing space) and
the last item as `"last")`. -/
def quotedTail : List String → String
  | [] => ""
  | [last] => dquote last ++ ")"
  | item :: rest => dquote item ++ " " ++ quotedTail rest

/-- Model of `impl Display for Metadata` (`src/lib.rs`): reconcile the two
definition locations (the nested `[package.metadata.aur]` block wins over
the legacy top-level lists), then print a `depends=(...)` group and an
`optdepends=(...)` group, each only when its list is non-empty, with a
newline after the first group exactly when the second is also printed. -/
def Metadata.fmt (m : Metadata) : String :=
  let lists := match m.aur with
    | some aur => (aur.depends, aur.optdepends)
    | none => (m.depends, m.optdepends)
  (match lists.1 with
   | [] => ""
   | _ :: _ =>
      "depends=(" ++ quotedTail lists.1 ++ (if lists.2.isEmpty then "" else "\n"))
  ++ (match lists.2 with
      | [] => ""
      | _ :: _ => "optdepends=(" ++ quotedTail lists.2)

/-- Licenses available from the Arch Linux `licenses` package
(`src/main.rs`, const `LICENSES`). -/
def LICENSES : List String :=
  ["AGPL-3.0-only",
   "AGPL-3.0-or-later",
   "Apache-2.0",
   "BSL-1.0",
   "GPL-2.0-only",
   "GPL-2.0-or-later",
   "GPL-3.0-only",
   "GPL-3.0-or-later",
   "LGPL-2.0-only",
   "LGPL-2.0-or-later",
   "LGPL-3.0-only",
   "LGPL-3.0-or-later",
   "MPL-2.0",
   "Unlicense"]

/-- Model of `must_copy_license` (`src/main.rs`). -/
def must_copy_license (license : String) : Bool :=
  !(LICENSES.contains license)

/-- Model of `license_file` (`src/main.rs`): the first entry of the
directory whose file name starts with `LICENSE`, else `MissingLicense`.
The directory is the list of its file names in iteration order. -/
def license_file (dir : List String) : Except Error String :=
  match dir.find? (fun entry => strStartsWith entry "LICENSE") with
  | some entry => .ok entry
  | none => .error .MissingLicense

/-- The license-resolution step of `work` (`src/main.rs`):
`alert_if_must_copy_license(&license).then(|| license_file(None)).transpose()?`.
A license on the allow-list requires no file; otherwise the first
`LICENSE*` file is required. -/
def resolveLicense (license : String) (dir : List String) : Except Error (Option String) :=
  if must_copy_license license then
    match license_file dir with
    | .ok entry => .ok (some entry)
    | .error e => .error e
  else .ok none

/-- Model of `release_build` (`src/main.rs`): `musl` only changes the
argument vector handed to `cargo`; the exit code returned by
`status()?` is dropped and the function returns `Ok(())`. -/
def release_build (musl : Bool) (cargoStatus : SpawnOutcome) : Except Error Unit :=
  match cargoStatus.status with
  | .error e => .error e
  | .ok _ => .ok ()

/-- Model of `strip` (`src/main.rs`): the exit code returned by
`status()?` is dropped and the function returns `Ok(())`. -/
def strip (stripStatus : SpawnOutcome) : Except Error Unit :=
  match stripStatus.status with
  | .error e => .error e
  | .ok _ => .ok ()

/-- Model of `source_tarball` (`src/main.rs`): `cargo publish --dry-run`
must exit zero, else `Compressing`; then the produced crate is renamed
(an I/O step that can fail). -/
def source_tarball (publishStatus : SpawnOutcome) (renameOk : Bool) : Except Error Unit :=
  match publishStatus.status with
  | .error e => .error e
  | .ok code =>
    if !(statusSuccess code) then .error .Compressing
    else if renameOk then .ok () else .error .IOError

/-- Result of the `tarball` stage (`src/main.rs`): the returned value and
whether the transient binary copy placed in the working directory still
exists when the function returns. -/
structure TarballTrace where
  res : Except Error Unit
  copyRemains : Bool
deriving Repr

/-- Model of `tarball` (`src/main.rs`): strip the release binary, copy it
into the working directory, run `tar` (failing with `Compressing` on a
non-zero exit), then remove the copy.  `musl` only selects the release
directory the binary is read from.  The trace records whether the copy is
still present at each exit point: the early `return` on a failed `tar`
happens before `remove_file`. -/
def tarball (musl : Bool) (stripStatus : SpawnOutcome) (copyOk : Bool)
    (tarStatus : SpawnOutcome) (removeOk : Bool) : TarballTrace :=
  match strip stripStatus with
  | .error e => ⟨.error e, false⟩
  | .ok _ =>
    if !copyOk then ⟨.error .IOError, false⟩
    else
      match tarStatus.status with
      | .error e => ⟨.error e, true⟩
      | .ok code =>
        if !(statusSuccess code) then ⟨.error .Compressing, true⟩
        else if !removeOk then ⟨.error .IOError, true⟩
        else ⟨.ok (), false⟩

/-- Model of `musl_check` (`src/main.rs`): `output()?` propagates only a
spawn failure; the exit code is never inspected.  The lines of stdout are
searched for the musl target triple. -/
def musl_check (rustupOutcome : SpawnOutcome) (stdoutLines : List String) : Except Error Unit :=
  match rustupOutcome with
  | .ioFailure => .error .IOError
  | .exited _ =>
    if stdoutLines.contains "x86_64-unknown-linux-musl" then .ok ()
    else .error .MissingMuslTarget

/-- Model of `Path::has_root` on Unix: the path begins with a slash. -/
def hasRoot (path : String) : Bool := strStartsWith path "/"

/-- The `source` binding of `pkgbuild` (`src/main.rs`): project builds and
crates-io binary builds resolve through the git host (defaulting to
GitHub); a crates-io source build uses the static crates.io URL. -/
def sourceField (package : Package) (source_type : Source) (no_bin : Bool) : String :=
  match source_type, no_bin with
  | .Project, _ | .CratesIo, false =>
      (package.git_host.getD GitHost.Github).source package no_bin
  | .CratesIo, true =>
      "$pkgname-$pkgver.tar.gz::https://static.crates.io/crates/$pkgname/$pkgname-$pkgver.crate"

/-- One extra-file install line of the `package()` body (`src/main.rs`). -/
def installLine (source target : String) : String :=
  "    install -Dm644 \"" ++ source ++ "\" \"$pkgdir" ++ target ++ "\"\n"

/-- The extra-files loop of `pkgbuild` (`src/main.rs`): each pair whose
target has a root gets an install line; the first pair whose target has no
root aborts the render with `TargetNotAbsolute`, line written for neither
it nor anything after it.  The first component is the text written so far. -/
def installFiles : List (String × String) → String × Option Error
  | [] => ("", none)
  | (source, target) :: rest =>
    if !(hasRoot target) then ("", some (Error.TargetNotAbsolute target))
    else
      let r := installFiles rest
      (installLine source target ++ r.1, r.2)

/-- The `prepare`, `build` and `check` blocks emitted for a from-source
package (`src/main.rs`, `pkgbuild`). -/
def buildStepsBlock : String :=
  "prepare() \x7b\n    cd $pkgname-$pkgver\n    export RUSTUP_TOOLCHAIN=stable\n    cargo fetch --locked --target \"$(rustc -vV | sed -n \x27s/host: //p\x27)\"\n\x7d\n\n"
  ++ "build() \x7b\n    cd $pkgname-$pkgver\n    export RUSTUP_TOOLCHAIN=stable\n    export CARGO_TARGET_DIR=target\n    cargo build --frozen --release --all-features\n\x7d\n\n"
  ++ "check() \x7b\n    cd $pkgname-$pkgver\n    export RUSTUP_TOOLCHAIN=stable\n    cargo test --frozen --all-features\n\x7d\n\n"

/-- Everything `pkgbuild` (`src/main.rs`) writes before the extra-files
loop: maintainer comments, attribution, the assignment block, the
dependency metadata (only when `non_empty`), source and checksum, the
from-source steps, the opening of `package()`, the binary install line and
the optional license install line.  The license argument is the file name
of the resolved license entry (`into_string` of an `OsString`; names are
modelled as UTF-8 strings). -/
def pkgbuildHeader (config : Config) (sha256 : String) (license : Option String)
    (source_type : Source) (no_bin : Bool) : String :=
  let package := config.package
  let authors := String.intercalate "\n" (package.authors.map (fun a => "# Maintainer: " ++ a))
  let source := sourceField package source_type no_bin
  let pkgname := if no_bin then package.name else package.name ++ "-bin"
  authors ++ "\n"
  ++ "#\n"
  ++ "# This PKGBUILD was generated by \x60cargo aur\x60: https://crates.io/crates/cargo-aur\n"
  ++ "\n"
  ++ "pkgname=" ++ pkgname ++ "\n"
  ++ "pkgver=" ++ package.version ++ "\n"
  ++ "pkgrel=1\n"
  ++ "pkgdesc=\"" ++ package.description ++ "\"\n"
  ++ "url=\"" ++ package.url ++ "\"\n"
  ++ "license=(\"" ++ package.license ++ "\")\n"
  ++ "arch=(\"x86_64\")\n"
  ++ (if !no_bin then
        "provides=(\"" ++ package.name ++ "\")\n"
          ++ "conflicts=(\"" ++ package.name ++ "\")\n"
      else "")
  ++ (match package.metadata with
      | some metadata => if metadata.non_empty then metadata.fmt ++ "\n" else ""
      | none => "")
  ++ "source=(\"" ++ source ++ "\")\n"
  ++ "sha256sums=(\"" ++ sha256 ++ "\")\n"
  ++ "\n"
  ++ (if no_bin then buildStepsBlock else "")
  ++ "package() \x7b\n"
  ++ (if no_bin then
        "    cd $pkgname-$pkgver\n"
          ++ "    install -Dm755 target/release/" ++ config.binary_name
          ++ " -t \"$pkgdir/usr/bin\"\n"
      else
        "    install -Dm755 " ++ config.binary_name ++ " -t \"$pkgdir/usr/bin\"\n")
  ++ (match license with
      | some file_name =>
          "    install -Dm644 " ++ file_name
            ++ " \"$pkgdir/usr/share/licenses/$pkgname/" ++ file_name ++ "\"\n"
      | none => "")

/-- Model of `pkgbuild` (`src/main.rs`): the header, then the extra-files
loop over `package.metadata.and_then(|m| m.aur)`, then the closing brace
of `package()` — which is only reached when no target path aborted the
loop.  The result pairs the text written to the file with the error, if
any, the function returned. -/
def pkgbuild (config : Config) (sha256 : String) (license : Option String)
    (source_type : Source) (no_bin : Bool) : String × Option Error :=
  let header := pkgbuildHeader config sha256 license source_type no_bin
  match config.package.metadata.bind Metadata.aur with
  | some aur =>
    let r := installFiles aur.files
    match r.2 with
    | some e => (header ++ r.1, some e)
    | none => (header ++ r.1 ++ "\x7d\n", none)
  | none => (header ++ "\x7d\n", none)

/-!
Spec-side definitions.  These follow the wording of the specification and
are compared against the definitions above, which follow the source.
-/

/-- Resolution of the `url` field as the specification words it: the first
non-empty string among homepage, documentation and repository, an empty or
missing value being skipped in favour of the next field. -/
def specUrl (package : Package) : String :=
  if package.homepage.getD "" ≠ "" then package.homepage.getD ""
  else if package.documentation.getD "" ≠ "" then package.documentation.getD ""
  else package.repository

/-- Claim C2: when the nested `aur` sub-block is present, the rendered
dependency lists are taken entirely from it; the legacy top-level lists
have no effect on the rendered metadata (replaced wholesale, never
merged). -/
theorem c2_nested_overrides_top_level (d o dN oN : List String)
    (files : List (String × String)) (custom : List String) :
    Metadata.fmt ⟨d, o, some ⟨dN, oN, files, custom⟩⟩
        = Metadata.fmt ⟨[], [], some ⟨dN, oN, files, custom⟩⟩
  ∧ Metadata.fmt ⟨d, o, some ⟨dN, oN, files, custom⟩⟩
        = Metadata.fmt ⟨dN, oN, none⟩ :=
  ⟨rfl, rfl⟩

/-- Claim C10: with a crates-io source in from-source mode the rendered
`source=` value is exactly the static crates.io template, for every
package and hence independent of the repository URL and of the git-host
classification. -/
theorem c10_crates_io_source (package : Package) :
    sourceField package Source.CratesIo true
      = "$pkgname-$pkgver.tar.gz::https://static.crates.io/crates/$pkgname/$pkgname-$pkgver.crate" :=
  rfl

/-- Claim C4 (code bug): the rendered PKGBUILD is entirely independent of
the `custom` command lines declared under `[package.metadata.aur]`; the
renderer never appends them, so replacing them with the empty list changes
nothing. -/
theorem c4_custom_commands_ignored
    (name version description repository license : String)
    (authors : List String) (homepage documentation : Option String)
    (d o ad ao : List String) (files : List (String × String))
    (custom : List String) (bins : List Binary)
    (sha : String) (lic : Option String) (st : Source) (nb : Bool) :
    pkgbuild ⟨⟨name, version, authors, description, repository, license,
        some ⟨d, o, some ⟨ad, ao, files, custom⟩⟩, homepage, documentation⟩, bins⟩ sha lic st nb
      = pkgbuild ⟨⟨name, version, authors, description, repository, license,
        some ⟨d, o, some ⟨ad, ao, files, []⟩⟩, homepage, documentation⟩, bins⟩ sha lic st nb := by
  simp [pkgbuild, pkgbuildHeader, Metadata.non_empty, Metadata.fmt, Option.bind,
    Package.url, sourceField, Package.git_host, GitHost.source, Config.binary_name]

/-- Claim C6, counterexample: an empty but declared homepage is not
skipped; the code resolves the url to the empty string where the claim
requires the documentation field. -/
theorem c6_claim_counterexample :
    Package.url ⟨"foo", "1.0.0", [], "", "https://github.com/x/foo", "MIT",
        none, some "", some "https://docs.rs/foo"⟩ = ""
  ∧ specUrl ⟨"foo", "1.0.0", [], "", "https://github.com/x/foo", "MIT",
        none, some "", some "https://docs.rs/foo"⟩ = "https://docs.rs/foo"
  ∧ ("" : String) ≠ "https://docs.rs/foo" :=
  ⟨rfl, by decide, by decide⟩

/-- Claim C6 as amended: the url is the first declared field among
homepage, documentation and repository, regardless of whether its string
is empty. -/
theorem c6_amended_url_resolution (package : Package) :
    (∀ h, package.homepage = some h → package.url = h)
  ∧ (package.homepage = none →
      ∀ d, package.documentation = some d → package.url = d)
  ∧ (package.homepage = none → package.documentation = none →
      package.url = package.repository) := by
  refine ⟨?_, ?_, ?_⟩ <;> intros <;> simp_all [Package.url]

/-- Claim C6, witness for the amended theorem. -/
theorem c6_amended_url_resolution_witness :
    Package.url ⟨"foo", "1.0.0", [], "", "https://github.com/x/foo", "MIT",
        none, some "", some "https://docs.rs/foo"⟩ = "" :=
  (c6_amended_url_resolution _).1 "" rfl

/-- Claim C1, counterexample: the release build returns success even
though `cargo build --release` exited with code 1. -/
theorem c1_claim_counterexample :
    release_build false (SpawnOutcome.exited 1) = Except.ok () :=
  rfl

/-- Claim C1 as amended: only the archive stages treat a non-zero exit
code as fatal; `release_build` and `strip` return success for every exit
code once the process spawned, and the toolchain target query inspects
stdout rather than the exit code. -/
theorem c1_amended_exit_codes (musl : Bool) (code : Nat) (h : code ≠ 0) :
    release_build musl (SpawnOutcome.exited code) = Except.ok ()
  ∧ strip (SpawnOutcome.exited code) = Except.ok ()
  ∧ musl_check (SpawnOutcome.exited code) ["x86_64-unknown-linux-musl"] = Except.ok ()
  ∧ source_tarball (SpawnOutcome.exited code) true = Except.error Error.Compressing
  ∧ (tarball musl (SpawnOutcome.exited 0) true (SpawnOutcome.exited code) true).res
      = Except.error Error.Compressing := by
  have hs : statusSuccess code = false := by
    simp [statusSuccess, h]
  refine ⟨rfl, rfl, by simp [musl_check], ?_, ?_⟩ <;>
    simp [source_tarball, tarball, strip, SpawnOutcome.status, hs]

/-- Claim C1, witness for the amended theorem. -/
theorem c1_amended_exit_codes_witness :
    release_build false (SpawnOutcome.exited 2) = Except.ok ()
  ∧ strip (SpawnOutcome.exited 2) = Except.ok ()
  ∧ musl_check (SpawnOutcome.exited 2) ["x86_64-unknown-linux-musl"] = Except.ok ()
  ∧ source_tarball (SpawnOutcome.exited 2) true = Except.error Error.Compressing
  ∧ (tarball false (SpawnOutcome.exited 0) true (SpawnOutcome.exited 2) true).res
      = Except.error Error.Compressing :=
  c1_amended_exit_codes false 2 (by decide)

/-- Claim C5, counterexample: when `tar` exits non-zero the operation
returns the compression error with the transient binary copy still in the
working directory. -/
theorem c5_claim_counterexample :
    (tarball false (SpawnOutcome.exited 0) true (SpawnOutcome.exited 1) true).res
      = Except.error Error.Compressing
  ∧ (tarball false (SpawnOutcome.exited 0) true (SpawnOutcome.exited 1) true).copyRemains
      = true :=
  ⟨rfl, rfl⟩

/-- Claim C5 as amended: the transient copy is removed on every successful
return, but on the archive-failure path the early return skips the
cleanup and the copy remains. -/
theorem c5_amended_cleanup (musl : Bool) (stripStatus : SpawnOutcome) (copyOk : Bool)
    (tarStatus : SpawnOutcome) (removeOk : Bool) :
    ((tarball musl stripStatus copyOk tarStatus removeOk).res = Except.ok () →
      (tarball musl stripStatus copyOk tarStatus removeOk).copyRemains = false)
  ∧ (∀ code, strip stripStatus = Except.ok () → copyOk = true →
      tarStatus = SpawnOutcome.exited code → statusSuccess code = false →
      (tarball musl stripStatus copyOk tarStatus removeOk).res = Except.error Error.Compressing
        ∧ (tarball musl stripStatus copyOk tarStatus removeOk).copyRemains = true) := by
  cases stripStatus <;> cases tarStatus <;> cases copyOk <;> cases removeOk <;>
    constructor <;>
    · intros
      simp_all [tarball, strip, SpawnOutcome.status, statusSuccess]
      try split_ifs <;> simp_all

/-- Claim C5, witness for the amended theorem. -/
theorem c5_amended_cleanup_witness :
    (tarball false (SpawnOutcome.exited 0) true (SpawnOutcome.exited 2) true).res
      = Except.error Error.Compressing
  ∧ (tarball false (SpawnOutcome.exited 0) true (SpawnOutcome.exited 2) true).copyRemains
      = true :=
  (c5_amended_cleanup false (SpawnOutcome.exited 0) true (SpawnOutcome.exited 2) true).2
    2 rfl rfl rfl rfl

/-- Claim C3: a repository URL starting with `https://github` resolves to
the GitHub release-asset template, with the architecture suffix present in
binary mode and absent in from-source mode. -/
theorem c3_github_source_url (package : Package)
    (h : strStartsWith package.repository "https://github" = true) :
    sourceField package Source.Project false
        = package.repository ++ "/releases/download/v$pkgver/" ++ package.name
            ++ "-$pkgver-x86_64.tar.gz"
  ∧ sourceField package Source.CratesIo false
        = package.repository ++ "/releases/download/v$pkgver/" ++ package.name
            ++ "-$pkgver-x86_64.tar.gz"
  ∧ sourceField package Source.Project true
        = package.repository ++ "/releases/download/v$pkgver/" ++ package.name
            ++ "-$pkgver.tar.gz" := by
  have hb : ("-$pkgver" ++ ("-x86_64" ++ ".tar.gz") : String) = "-$pkgver-x86_64.tar.gz" := rfl
  have hs : ("-$pkgver" ++ ("" ++ ".tar.gz") : String) = "-$pkgver.tar.gz" := rfl
  refine ⟨?_, ?_, ?_⟩ <;>
    simp [sourceField, Package.git_host, h, GitHost.source, String.append_assoc, hb, hs]

/-- Claim C3, witness. -/
theorem c3_github_source_url_witness :
    sourceField ⟨"foo", "1.0.0", [], "", "https://github.com/x/foo", "MIT", none, none, none⟩
        Source.Project false
      = "https://github.com/x/foo/releases/download/v$pkgver/foo-$pkgver-x86_64.tar.gz"
  ∧ sourceField ⟨"foo", "1.0.0", [], "", "https://github.com/x/foo", "MIT", none, none, none⟩
        Source.CratesIo false
      = "https://github.com/x/foo/releases/download/v$pkgver/foo-$pkgver-x86_64.tar.gz"
  ∧ sourceField ⟨"foo", "1.0.0", [], "", "https://github.com/x/foo", "MIT", none, none, none⟩
        Source.Project true
      = "https://github.com/x/foo/releases/download/v$pkgver/foo-$pkgver.tar.gz" :=
  c3_github_source_url _ (by decide)

/-- No entry of the allow-list begins with the literal `LICENSE`, so a
file name with that prefix can never equal an allow-list identifier. -/
theorem licenses_have_no_license_start : ∀ s ∈ LICENSES, strStartsWith s "LICENSE" = false := by
  decide

/-- Claim C7: for a license on the allow-list no file is searched for or
required; otherwise the resolver returns the first file of the directory
whose name starts with `LICENSE` — such a name never equals an allow-list
identifier — and fails with the missing-license error when no such file
exists. -/
theorem c7_license_resolution (license : String) (dir : List String) :
    (license ∈ LICENSES → resolveLicense license dir = Except.ok none)
  ∧ (license ∉ LICENSES →
      ((∀ entry ∈ dir, strStartsWith entry "LICENSE" = false) →
          resolveLicense license dir = Except.error Error.MissingLicense)
      ∧ (∀ entry, resolveLicense license dir = Except.ok (some entry) →
          strStartsWith entry "LICENSE" = true
            ∧ entry ∉ LICENSES
            ∧ entry ∈ dir)) := by
  constructor
  · intro h
    simp [resolveLicense, must_copy_license, h]
  · intro h
    constructor
    · intro hall
      have hnone : dir.find? (fun entry => strStartsWith entry "LICENSE") = none := by
        rw [List.find?_eq_none]
        intro x hx
        simp [hall x hx]
      simp [resolveLicense, must_copy_license, h, license_file, hnone]
    · intro entry he
      rcases hf : dir.find? (fun entry => strStartsWith entry "LICENSE") with _ | found
      · simp [resolveLicense, must_copy_license, h, license_file, hf] at he
      · simp [resolveLicense, must_copy_license, h, license_file, hf] at he
        subst he
        have h1 : strStartsWith found "LICENSE" = true := by
          simpa using List.find?_some hf
        have h2 : found ∈ dir := List.mem_of_find?_eq_some hf
        refine ⟨h1, ?_, h2⟩
        intro hmem
        have := licenses_have_no_license_start found hmem
        rw [this] at h1
        exact Bool.false_ne_true h1

/-- Claim C7, witness -/
theorem c7_license_resolution_witness :
    resolveLicense "Apache-2.0" ["README.md", "LICENSE-MIT"] = Except.ok none
  ∧ resolveLicense "MIT" ([] : List String) = Except.error Error.MissingLicense
  ∧ (strStartsWith "LICENSE-MIT" "LICENSE" = true
      ∧ "LICENSE-MIT" ∉ LICENSES
      ∧ "LICENSE-MIT" ∈ ["README.md", "LICENSE-MIT"]) :=
  ⟨(c7_license_resolution "Apache-2.0" ["README.md", "LICENSE-MIT"]).1 (by decide),
   ((c7_license_resolution "MIT" []).2 (by decide)).1 (by intro entry h; cases h),
   ((c7_license_resolution "MIT" ["README.md", "LICENSE-MIT"]).2 (by decide)).2
     "LICENSE-MIT" rfl⟩

/-- Items separated by single spaces, with no trailing separator, exactly
as the specification words the list layout. -/
def spaceJoin : List String → String
  | [] => ""
  | [x] => x
  | x :: rest => x ++ " " ++ spaceJoin rest

/-- The `depends=(...)` line as the specification words it: present only
for a non-empty list, items double-quoted and space-joined. -/
def specDependsLine (items : List String) : String :=
  match items with
  | [] => ""
  | _ :: _ => "depends=(" ++ spaceJoin (items.map dquote) ++ ")"

/-- The `optdepends=(...)` line as the specification words it. -/
def specOptdependsLine (items : List String) : String :=
  match items with
  | [] => ""
  | _ :: _ => "optdepends=(" ++ spaceJoin (items.map dquote) ++ ")"

/-- The effective dependency list: the nested aur list when that block is
present, otherwise the top-level list. -/
def Metadata.effDepends (m : Metadata) : List String :=
  match m.aur with
  | some aur => aur.depends
  | none => m.depends

/-- The effective optional-dependency list. -/
def Metadata.effOptdepends (m : Metadata) : List String :=
  match m.aur with
  | some aur => aur.optdepends
  | none => m.optdepends

/-- The middle-then-last printing loop produces exactly the space-joined
quoted items followed by the closing parenthesis. -/
theorem quotedTail_eq_spaceJoin : ∀ (x : String) (rest : List String),
    quotedTail (x :: rest) = spaceJoin ((x :: rest).map dquote) ++ ")"
  | _, [] => rfl
  | x, y :: rest => by
    have ih := quotedTail_eq_spaceJoin y rest
    show dquote x ++ " " ++ quotedTail (y :: rest)
      = dquote x ++ " " ++ spaceJoin ((y :: rest).map dquote) ++ ")"
    rw [ih]
    simp only [String.append_assoc]

/-- Claim C8: the rendered dependency metadata equals the spec-side
layout: a `depends=(...)` line exactly when the effective list is
non-empty and an `optdepends=(...)` line exactly when that effective list
is non-empty, items double-quoted and space-joined with no trailing
separator. -/
theorem c8_depends_rendering (m : Metadata) :
    Metadata.fmt m
      = specDependsLine m.effDepends
        ++ (if m.effDepends.isEmpty || m.effOptdepends.isEmpty then "" else "\n")
        ++ specOptdependsLine m.effOptdepends := by
  obtain ⟨d, o, aur⟩ := m
  have key : ∀ deps opts : List String,
      Metadata.fmt ⟨deps, opts, none⟩
        = specDependsLine deps
          ++ (if deps.isEmpty || opts.isEmpty then "" else "\n")
          ++ specOptdependsLine opts := by
    intro deps opts
    cases deps with
    | nil =>
      cases opts with
      | nil => rfl
      | cons y ys =>
        simp [Metadata.fmt, specDependsLine, specOptdependsLine,
          quotedTail_eq_spaceJoin, String.append_assoc]
    | cons x xs =>
      cases opts with
      | nil =>
        simp [Metadata.fmt, specDependsLine, specOptdependsLine,
          quotedTail_eq_spaceJoin, String.append_assoc, String.append_empty]
      | cons y ys =>
        simp [Metadata.fmt, specDependsLine, specOptdependsLine,
          quotedTail_eq_spaceJoin, String.append_assoc]
  cases aur with
  | none => exact key d o
  | some a =>
    have h := key a.depends a.optdepends
    calc Metadata.fmt ⟨d, o, some a⟩ = Metadata.fmt ⟨a.depends, a.optdepends, none⟩ := rfl
    _ = _ := h

/-- The install lines written for a list of extra-file pairs. -/
def renderLines : List (String × String) → String
  | [] => ""
  | x :: rest => installLine x.1 x.2 ++ renderLines rest

/-- The extra-files loop writes the lines of the pairs before the first
non-absolute target and then aborts with that target's error. -/
theorem installFiles_append : ∀ (pre : List (String × String))
    (post : List (String × String)) (s t : String),
    (∀ x ∈ pre, hasRoot x.2 = true) → hasRoot t = false →
    installFiles (pre ++ (s, t) :: post)
      = (renderLines pre, some (Error.TargetNotAbsolute t))
  | [], post, s, t, _, ht => by
    simp [installFiles, ht, renderLines]
  | a :: pre, post, s, t, hpre, ht => by
    have ha : hasRoot a.2 = true := hpre a (by simp)
    have ih := installFiles_append pre post s t (fun x hx => hpre x (by simp [hx])) ht
    simp [installFiles, ha, ih, renderLines]

/-- Claim C9: when an extra-file pair's target path is not absolute,
rendering fails with the target-path error carrying that path, and the
written output ends with the install lines of the pairs before it — no
line for the offending entry or any later entry, and no closing brace. -/
theorem c9_target_not_absolute (config : Config) (sha : String) (lic : Option String)
    (st : Source) (nb : Bool) (m : Metadata) (aur : AUR)
    (pre post : List (String × String)) (s t : String)
    (hm : config.package.metadata = some m) (ha : m.aur = some aur)
    (hf : aur.files = pre ++ (s, t) :: post)
    (hpre : ∀ x ∈ pre, hasRoot x.2 = true) (ht : hasRoot t = false) :
    pkgbuild config sha lic st nb
      = (pkgbuildHeader config sha lic st nb ++ renderLines pre,
         some (Error.TargetNotAbsolute t)) := by
  have hloop := installFiles_append pre post s t hpre ht
  simp [pkgbuild, hm, ha, Option.bind, hf, hloop]

/-- Claim C9, witness -/
theorem c9_target_not_absolute_witness :
    pkgbuild ⟨⟨"foo", "1.0.0", [], "", "https://github.com/x/foo", "MIT",
        some ⟨[], [], some ⟨[], [], [("a.txt", "etc/a.txt")], []⟩⟩, none, none⟩, []⟩
        "deadbeef" none Source.Project false
      = (pkgbuildHeader ⟨⟨"foo", "1.0.0", [], "", "https://github.com/x/foo", "MIT",
          some ⟨[], [], some ⟨[], [], [("a.txt", "etc/a.txt")], []⟩⟩, none, none⟩, []⟩
          "deadbeef" none Source.Project false ++ renderLines [],
         some (Error.TargetNotAbsolute "etc/a.txt")) :=
  c9_target_not_absolute _ "deadbeef" none Source.Project false _ _ [] []
    "a.txt" "etc/a.txt" rfl rfl rfl (by intro x hx; cases hx) rfl
